import Mathlib

/-!
Shallow embedding of the Whisper batch-transcription driver (`index.js`) and
proofs about its orchestration logic.

The program discovers audio files under a source directory, submits each to an
external transcription service, writes successful results as `.txt` files into
a flat output directory, and prints a run summary.  Filesystem reads are
modelled by an explicit directory tree (`FsEntry`), the external service by an
oracle function, and the observable effects of a run (exit code, requests
issued, files written, summary printed) by an explicit `MainResult` record.
-/

/-- js: `SUPPORTED_FORMATS = ['.mp3', '.mp4', '.mpeg', '.mpga', '.m4a', '.wav', '.webm']` -/
def SUPPORTED_FORMATS : List String :=
  [".mp3", ".mp4", ".mpeg", ".mpga", ".m4a", ".wav", ".webm"]

/-- js: the `MODELS` object, an id → description map. -/
def MODELS : List (String × String) :=
  [("whisper-1", "OpenAI Whisper (most accurate)"),
   ("whisper-1-quantized", "OpenAI Whisper (optimized)")]

/-- js: `SOURCE_DIR = path.join(__dirname, 'source')`, modelled relative to `__dirname`. -/
def SOURCE_DIR : String := "source"

/-- js: `OUTPUT_DIR = path.join(__dirname, 'transcriptions')`, modelled relative to `__dirname`. -/
def OUTPUT_DIR : String := "transcriptions"

/-- `path.join(a, b)` for the already-normalised paths this program builds. -/
def pathJoin (a b : String) : String := a ++ "/" ++ b

/-- `String.prototype.toLowerCase()`; the extensions compared here are ASCII. -/
def strLower (s : String) : String := String.mk (s.toList.map Char.toLower)

/-- Suffix of `cs` starting at its last `'.'`, or `none` when `cs` has no dot. -/
def extFrom : List Char → Option (List Char)
  | [] => none
  | c :: cs =>
    match extFrom cs with
    | some e => some e
    | none => if c = '.' then some (c :: cs) else none

/-- Node's `path.extname` on a single path segment: the suffix from the last
dot, except that a dot at position 0 (a hidden file) yields the empty string. -/
def extname (name : String) : String :=
  match name.toList with
  | [] => ""
  | _ :: rest =>
    match extFrom rest with
    | some e => String.mk e
    | none => ""

/-- Node's `path.basename p`: the part of `p` after the last `'/'`
(the paths this program builds never end in a slash). -/
def basename (p : String) : String :=
  String.mk ((p.toList.reverse.takeWhile (fun c => c ≠ '/')).reverse)

/-- Node's `path.basename(p, ext)` suffix stripping, on char lists: the suffix
`ext` is removed when it is non-empty, a proper suffix of `b`, and not all of
`b`. -/
def stripExtSuffix (b ext : List Char) : List Char :=
  if ext ≠ [] ∧ b ≠ ext ∧ ext.isSuffixOf b then b.take (b.length - ext.length) else b

/-- A filesystem tree: what `fsPromises.readdir(dir, { withFileTypes: true })`
would reveal at each level.  `readdir` never reports `.` or `..`. -/
inductive FsEntry where
  | file (name : String)
  | dir (name : String) (children : List FsEntry)

/-- js: the extension test on line 89,
`SUPPORTED_FORMATS.includes(path.extname(file.name).toLowerCase())`. -/
def isSupportedName (name : String) : Bool :=
  SUPPORTED_FORMATS.contains (strLower (extname name))

mutual

/-- One iteration of the `for (const file of files)` loop body of
`findAudioFiles`: a matching file contributes its joined path, a directory
contributes the recursive scan of its children. -/
def findInEntry (dir : String) : FsEntry → List String
  | .file name => if isSupportedName name then [pathJoin dir name] else []
  | .dir name children => findInEntries (pathJoin dir name) children

/-- js: `findAudioFiles(dir)` where the `FsEntry` list is what `readdir dir`
returns; accumulates over the entries in listing order. -/
def findInEntries (dir : String) : List FsEntry → List String
  | [] => []
  | e :: rest => findInEntry dir e ++ findInEntries dir rest

end

mutual

/-- All files in one entry, each as (joined path, base name) — the reference
enumeration that `findInEntry` filters. -/
def filesInEntry (dir : String) : FsEntry → List (String × String)
  | .file name => [(pathJoin dir name, name)]
  | .dir name children => filesInEntries (pathJoin dir name) children

/-- All files in a listing, each as (joined path, base name). -/
def filesInEntries (dir : String) : List FsEntry → List (String × String)
  | [] => []
  | e :: rest => filesInEntry dir e ++ filesInEntries dir rest

end

mutual

theorem findInEntry_eq_filter (dir : String) (e : FsEntry) :
    findInEntry dir e
      = ((filesInEntry dir e).filter (fun pn => isSupportedName pn.2)).map Prod.fst := by
  cases e with
  | file name =>
    by_cases h : isSupportedName name <;>
      simp [findInEntry, filesInEntry, List.filter, h]
  | dir name children =>
    simpa [findInEntry, filesInEntry] using
      findInEntries_eq_filter (pathJoin dir name) children

theorem findInEntries_eq_filter (dir : String) (es : List FsEntry) :
    findInEntries dir es
      = ((filesInEntries dir es).filter (fun pn => isSupportedName pn.2)).map Prod.fst := by
  cases es with
  | nil => simp [findInEntries, filesInEntries]
  | cons e rest =>
    simp [findInEntries, filesInEntries, List.filter_append,
      findInEntry_eq_filter dir e, findInEntries_eq_filter dir rest]

end

/-- The CLI options record (commander's `program.opts()`); defaults are
`model = "whisper-1"`, `language = "auto"`, `prompt` unset, `debug` off. -/
structure Options where
  model : String
  language : String
  prompt : Option String
  debug : Bool
deriving DecidableEq

/-- The request object passed to
`openai.audio.transcriptions.create({ file, model, language, prompt })`;
`none` in an optional field is javascript `undefined`, i.e. the field omitted. -/
structure TranscriptionRequest where
  file : String
  model : String
  language : Option String
  prompt : Option String
deriving DecidableEq

/-- js lines 56-61: the request literal, with
`language: language !== 'auto' ? language : undefined`. -/
def mkRequest (filePath model language : String) (prompt : Option String) :
    TranscriptionRequest :=
  { file := filePath
    model := model
    language := if language ≠ "auto" then some language else none
    prompt := prompt }

/-- The external service: an oracle mapping a request to recognized text
(`.ok`) or a thrown provider error with its message (`.error`). -/
def Api : Type := TranscriptionRequest → Except String String

/-- js `transcribeAudio`: issues the request and returns `transcription.text`,
or `null` (here `none`) when the call throws — the error is logged and
swallowed. -/
def transcribeAudio (api : Api) (filePath model language : String)
    (prompt : Option String) : Option String :=
  match api (mkRequest filePath model language prompt) with
  | .ok text => some text
  | .error _ => none

/-- Javascript truthiness of `transcribeAudio`'s result at line 165
(`if (transcription)`): `null` and the empty string are falsy. -/
def truthy : Option String → Bool
  | none => false
  | some s => !(s == "")

/-- js line 154: `path.join(OUTPUT_DIR,
`${path.basename(audioFile, path.extname(audioFile))}.txt`)`.  Node's
`extname` of a full path inspects only its last segment. -/
def outputFileFor (audioFile : String) : String :=
  pathJoin OUTPUT_DIR
    (String.mk (stripExtSuffix (basename audioFile).toList
      (extname (basename audioFile)).toList) ++ ".txt")

/-- Observable effects of the processing loop (js lines 149-172). -/
structure LoopResult where
  successCount : Nat
  requests : List TranscriptionRequest
  writes : List (String × String)
deriving DecidableEq

/-- The `for (let i = 0; ...)` loop over the discovered files: per file, one
request; on a truthy result, one `writeFile(outputFile, transcription)` and a
`successCount` increment; otherwise only the failure is recorded. -/
def processFiles (api : Api) (opts : Options) : List String → LoopResult
  | [] => ⟨0, [], []⟩
  | f :: rest =>
    let req := mkRequest f opts.model opts.language opts.prompt
    let t := transcribeAudio api f opts.model opts.language opts.prompt
    let r := processFiles api opts rest
    if truthy t then
      ⟨r.successCount + 1, req :: r.requests, (outputFileFor f, t.getD "") :: r.writes⟩
    else
      ⟨r.successCount, req :: r.requests, r.writes⟩

/-- The final count block (js lines 175-184): total and success counts always,
the failed count only under `successCount < audioFiles.length`. -/
structure Summary where
  total : Nat
  succeeded : Nat
  failedLine : Option Nat
deriving DecidableEq

/-- Observable outcome of one run of `main`.  `discoverCalls` counts
invocations of `findAudioFiles`; `requests` and `writes` are the external
calls and file writes in program order; `modelsListed` is the id list printed
by the invalid-model error path; `noFilesNotice` marks the zero-file message. -/
structure MainResult where
  exitCode : Nat
  discoverCalls : Nat
  requests : List TranscriptionRequest
  writes : List (String × String)
  summary : Option Summary
  modelsListed : Option (List String)
  noFilesNotice : Bool
deriving DecidableEq

/-- js line 106: `!process.env.OPENAI_API_KEY` — unset or empty is falsy. -/
def keyMissing : Option String → Bool
  | none => true
  | some s => s == ""

/-- Property names every javascript object literal inherits from
`Object.prototype`; bracket access resolves each of them to a truthy value
(a built-in function, or the prototype object itself for `__proto__`). -/
def OBJECT_PROTOTYPE_PROPS : List String :=
  ["constructor", "hasOwnProperty", "isPrototypeOf", "propertyIsEnumerable",
   "toLocaleString", "toString", "valueOf", "__defineGetter__",
   "__defineSetter__", "__lookupGetter__", "__lookupSetter__", "__proto__"]

/-- js line 112: truthiness of `MODELS[options.model]`.  `MODELS` is an
object literal, so bracket access finds its own keys (whose values are
non-empty description strings, hence truthy) and then walks the prototype
chain, where the `Object.prototype` property names also resolve to truthy
values. -/
def modelCheckPasses (model : String) : Bool :=
  (MODELS.lookup model).isSome || OBJECT_PROTOTYPE_PROPS.contains model

/-- js `main()` (the name `main` is reserved by Lean).  `apiKey` is `process.env.OPENAI_API_KEY` (`none` = unset),
`tree` is the content of `SOURCE_DIR`, `api` the external service.  The
filesystem operations (`mkdir`, `writeFile`) are modelled as succeeding, so
the top-level catch (exit 1) is unreachable here. -/
def mainRun (apiKey : Option String) (opts : Options) (tree : List FsEntry)
    (api : Api) : MainResult :=
  if keyMissing apiKey then
    ⟨1, 0, [], [], none, none, false⟩
  else if !(modelCheckPasses opts.model) then
    ⟨1, 0, [], [], none, some (MODELS.map Prod.fst), false⟩
  else if (findInEntries SOURCE_DIR tree).length = 0 then
    ⟨0, 1, [], [], none, none, true⟩
  else
    ⟨0, 1, (processFiles api opts (findInEntries SOURCE_DIR tree)).requests,
      (processFiles api opts (findInEntries SOURCE_DIR tree)).writes,
      some ⟨(findInEntries SOURCE_DIR tree).length,
        (processFiles api opts (findInEntries SOURCE_DIR tree)).successCount,
        if (processFiles api opts (findInEntries SOURCE_DIR tree)).successCount
            < (findInEntries SOURCE_DIR tree).length
        then some ((findInEntries SOURCE_DIR tree).length
            - (processFiles api opts (findInEntries SOURCE_DIR tree)).successCount)
        else none⟩,
      none, false⟩

/-- `fsPromises.writeFile name content`: create the file or replace its
entire content.  The output directory is an association list. -/
def fsWrite (fs : List (String × String)) (name content : String) :
    List (String × String) :=
  if fs.any (fun e => e.1 == name) then
    fs.map (fun e => if e.1 == name then (e.1, content) else e)
  else fs ++ [(name, content)]

/-- Replay a list of writes against a directory state. -/
def runWrites : List (String × String) → List (String × String) → List (String × String)
  | fs, [] => fs
  | fs, (n, c) :: ws => runWrites (fsWrite fs n c) ws

/-- Content of a file in a directory state. -/
def lookupW (fs : List (String × String)) (n : String) : Option String :=
  (fs.find? (fun e => e.1 == n)).map Prod.snd

/-- The output directory after a run: its writes replayed on an empty
directory. -/
def outputDir (r : MainResult) : List (String × String) :=
  runWrites [] r.writes

/-- A constant-success oracle. -/
def apiConst (t : String) : Api := fun _ => Except.ok t

/-- An always-throwing oracle (e.g. a network failure on every request). -/
def apiFail : Api := fun _ => Except.error "network error"

/-- An oracle that succeeds with the empty string on every request. -/
def apiEmpty : Api := fun _ => Except.ok ""

/-- The commander defaults: `whisper-1`, `auto`, no prompt, debug off. -/
def defaultOpts : Options := ⟨"whisper-1", "auto", none, false⟩

/-- Whether the run's emitted summary contains a failed-count line of value `n`. -/
def reportsFailed (r : MainResult) (n : Nat) : Bool :=
  match r.summary with
  | some s => s.failedLine == some n
  | none => false

theorem processFiles_requests_length (api : Api) (opts : Options) (files : List String) :
    (processFiles api opts files).requests.length = files.length := by
  induction files with
  | nil => rfl
  | cons f rest ih =>
    simp only [processFiles]
    split <;> simp [ih]

theorem processFiles_successCount_eq (api : Api) (opts : Options) (files : List String) :
    (processFiles api opts files).successCount
      = files.countP
          (fun f => truthy (transcribeAudio api f opts.model opts.language opts.prompt)) := by
  induction files with
  | nil => rfl
  | cons f rest ih =>
    simp only [processFiles, List.countP_cons]
    split <;> rename_i h <;> simp [h, ih]

theorem processFiles_successCount_le (api : Api) (opts : Options) (files : List String) :
    (processFiles api opts files).successCount ≤ files.length := by
  rw [processFiles_successCount_eq]
  exact List.countP_le_length _

theorem processFiles_writes_eq (api : Api) (opts : Options) (files : List String) :
    (processFiles api opts files).writes
      = files.filterMap (fun f =>
          let t := transcribeAudio api f opts.model opts.language opts.prompt
          if truthy t then some (outputFileFor f, t.getD "") else none) := by
  induction files with
  | nil => rfl
  | cons f rest ih =>
    simp only [processFiles, List.filterMap_cons]
    split <;> rename_i h <;> simp [h, ih]

theorem processFiles_writes_length (api : Api) (opts : Options) (files : List String) :
    (processFiles api opts files).writes.length
      = (processFiles api opts files).successCount := by
  induction files with
  | nil => rfl
  | cons f rest ih =>
    simp only [processFiles]
    split <;> simp [ih]

theorem processFiles_writes_fst_sublist (api : Api) (opts : Options) (files : List String) :
    ((processFiles api opts files).writes.map Prod.fst).Sublist
      (files.map outputFileFor) := by
  induction files with
  | nil => simp [processFiles]
  | cons f rest ih =>
    simp only [processFiles, List.map_cons]
    split
    · simpa using List.Sublist.cons₂ (outputFileFor f) ih
    · exact List.Sublist.cons (outputFileFor f) ih

theorem fsWrite_map_fst (fs : List (String × String)) (n c : String) :
    (fsWrite fs n c).map Prod.fst
      = if fs.any (fun e => e.1 == n) then fs.map Prod.fst
        else fs.map Prod.fst ++ [n] := by
  unfold fsWrite
  split <;> rename_i h
  · simp only [h, if_true, List.map_map]
    refine List.map_congr_left (fun e _ => ?_)
    simp only [Function.comp_apply]
    split <;> rfl
  · simp [h]

theorem fsWrite_length (fs : List (String × String)) (n c : String) :
    (fsWrite fs n c).length
      = if fs.any (fun e => e.1 == n) then fs.length else fs.length + 1 := by
  unfold fsWrite
  split <;> simp_all

theorem runWrites_length_le (ws fs : List (String × String)) :
    (runWrites fs ws).length ≤ fs.length + ws.length := by
  induction ws generalizing fs with
  | nil => simp [runWrites]
  | cons w ws ih =>
    calc (runWrites fs (w :: ws)).length
        = (runWrites (fsWrite fs w.1 w.2) ws).length := by simp [runWrites]
      _ ≤ (fsWrite fs w.1 w.2).length + ws.length := ih _
      _ ≤ fs.length + 1 + ws.length := by
          rw [fsWrite_length]; split <;> omega
      _ = fs.length + (w :: ws).length := by simp; omega

theorem mem_runWrites_map_fst (ws fs : List (String × String)) (p : String)
    (hp : p ∈ (runWrites fs ws).map Prod.fst) :
    p ∈ fs.map Prod.fst ∨ p ∈ ws.map Prod.fst := by
  induction ws generalizing fs with
  | nil => exact Or.inl (by simpa [runWrites] using hp)
  | cons w ws ih =>
    rcases ih (fsWrite fs w.1 w.2) (by simpa [runWrites] using hp) with h | h
    · rw [fsWrite_map_fst] at h
      split at h
      · exact Or.inl h
      · rcases List.mem_append.mp h with h | h
        · exact Or.inl h
        · exact Or.inr (by simp at h; simp [h])
    · exact Or.inr (by simp [h])

theorem runWrites_length_of_nodup (ws fs : List (String × String))
    (hnd : (ws.map Prod.fst).Nodup)
    (hdisj : ∀ n ∈ ws.map Prod.fst, n ∉ fs.map Prod.fst) :
    (runWrites fs ws).length = fs.length + ws.length := by
  induction ws generalizing fs with
  | nil => simp [runWrites]
  | cons w ws ih =>
    rw [List.map_cons, List.nodup_cons] at hnd
    have hwn : w.1 ∉ fs.map Prod.fst := hdisj w.1 (by simp)
    have hany : fs.any (fun e => e.1 == w.1) = false := by
      rw [List.any_eq_false]
      intro e he hbeq
      exact hwn (eq_of_beq hbeq ▸ List.mem_map_of_mem Prod.fst he)
    have hlen : (fsWrite fs w.1 w.2).length = fs.length + 1 := by
      rw [fsWrite_length, hany]; simp
    have hnames : (fsWrite fs w.1 w.2).map Prod.fst = fs.map Prod.fst ++ [w.1] := by
      rw [fsWrite_map_fst, hany]; simp
    have hdisj' : ∀ n ∈ ws.map Prod.fst, n ∉ (fsWrite fs w.1 w.2).map Prod.fst := by
      intro n hn
      rw [hnames]
      intro hmem
      rcases List.mem_append.mp hmem with h | h
      · exact hdisj n (by simp [hn]) h
      · simp at h
        subst h
        exact hnd.1 hn
    calc (runWrites fs (w :: ws)).length
        = (runWrites (fsWrite fs w.1 w.2) ws).length := by simp [runWrites]
      _ = (fsWrite fs w.1 w.2).length + ws.length := ih _ hnd.2 hdisj'
      _ = fs.length + (w :: ws).length := by rw [hlen, List.length_cons]; omega

theorem find?_map_overwrite (fs : List (String × String)) (n c : String)
    (h : fs.any (fun e => e.1 == n) = true) :
    (fs.map (fun e => if e.1 == n then (e.1, c) else e)).find? (fun e => e.1 == n)
      = some (n, c) := by
  induction fs with
  | nil => simp at h
  | cons e fs ih =>
    by_cases he : (e.1 == n) = true
    · simp only [List.map_cons, he, if_true]
      rw [List.find?_cons_of_pos _ (by simpa using he)]
      simp [eq_of_beq he]
    · have h' : fs.any (fun e => e.1 == n) = true := by
        simp only [List.any_cons, he] at h
        simpa using h
      simp only [List.map_cons, he, if_false]
      rw [List.find?_cons_of_neg _ (by simp [he])]
      exact ih h'

theorem find?_append_fresh (fs : List (String × String)) (n c : String)
    (h : fs.any (fun e => e.1 == n) = false) :
    (fs ++ [(n, c)]).find? (fun e => e.1 == n) = some (n, c) := by
  induction fs with
  | nil => simp [List.find?_cons]
  | cons e fs ih =>
    simp only [List.any_cons, Bool.or_eq_false_iff] at h
    rw [List.cons_append, List.find?_cons_of_neg _ (by simp [h.1])]
    exact ih h.2

theorem lookupW_fsWrite_self (fs : List (String × String)) (n c : String) :
    lookupW (fsWrite fs n c) n = some c := by
  unfold fsWrite lookupW
  split <;> rename_i h
  · rw [find?_map_overwrite fs n c h]
    rfl
  · rw [find?_append_fresh fs n c (Bool.eq_false_iff.mpr h)]
    rfl

/-- C4: for every directory tree, the File Discoverer returns exactly the
paths of the files whose lowercased extension lies in the supported set
{.mp3, .mp4, .mpeg, .mpga, .m4a, .wav, .webm} — at any nesting depth, with
the extension compared case-insensitively — and none of the other files:
its result is the supported-name filter of the full file enumeration, so it
has exactly N = (number of supported files) entries and omits all M others. -/
theorem claim_C4_discovery_exact (dir : String) (es : List FsEntry) :
    findInEntries dir es
      = ((filesInEntries dir es).filter (fun pn => isSupportedName pn.2)).map Prod.fst ∧
    (findInEntries dir es).length
      = (filesInEntries dir es).countP (fun pn => isSupportedName pn.2) := by
  refine ⟨findInEntries_eq_filter dir es, ?_⟩
  rw [findInEntries_eq_filter dir es, List.length_map, List.countP_eq_length_filter]

/-- C3: the request handed to the external transcription call omits the
language parameter (javascript `undefined`, here `none`) exactly when the
language option is the sentinel `"auto"`; any other value is passed through
unchanged. -/
theorem claim_C3_language_passthrough (filePath model language : String)
    (prompt : Option String) :
    (language = "auto" → (mkRequest filePath model language prompt).language = none) ∧
    (language ≠ "auto" → (mkRequest filePath model language prompt).language = some language) := by
  constructor <;> intro h <;> simp [mkRequest, h]

/-- Witness for C3 at the sentinel and at a concrete language code. -/
theorem claim_C3_witness :
    (mkRequest "source/a.mp3" "whisper-1" "auto" none).language = none ∧
    (mkRequest "source/a.mp3" "whisper-1" "hu" none).language = some "hu" :=
  ⟨(claim_C3_language_passthrough "source/a.mp3" "whisper-1" "auto" none).1 rfl,
   (claim_C3_language_passthrough "source/a.mp3" "whisper-1" "hu" none).2 (by decide)⟩

/-- C5: with the credential absent (`OPENAI_API_KEY` unset), the run exits
with status 1 having called the discoverer zero times and issued no
transcription request. -/
theorem claim_C5_missing_credential (opts : Options) (tree : List FsEntry) (api : Api) :
    (mainRun none opts tree api).exitCode = 1 ∧
    (mainRun none opts tree api).discoverCalls = 0 ∧
    (mainRun none opts tree api).requests = [] := by
  simp [mainRun, keyMissing]

/-- C6: the claim is right and the code has a slip.  The check at js line
112, `if (!MODELS[options.model])`, uses bracket access on an object
literal as set membership, but bracket access also finds the truthy
properties every object inherits from `Object.prototype`.  At the unknown
model id `toString` — not a key of `MODELS` — the check therefore passes
and the run proceeds to discovery and transcription (here: one discovery
call, one request carrying model `toString`, exit status 0), instead of
exiting with status 1 before discovery and listing the known models as the
program's own `Invalid model` error path intends. -/
theorem claim_C6_proto_chain_leak :
    MODELS.lookup "toString" = none ∧
    modelCheckPasses "toString" = true ∧
    (mainRun (some "sk-test") ⟨"toString", "auto", none, false⟩
      [FsEntry.file "a.mp3"] apiFail).exitCode = 0 ∧
    (mainRun (some "sk-test") ⟨"toString", "auto", none, false⟩
      [FsEntry.file "a.mp3"] apiFail).discoverCalls = 1 ∧
    (mainRun (some "sk-test") ⟨"toString", "auto", none, false⟩
      [FsEntry.file "a.mp3"] apiFail).requests
      = [mkRequest "source/a.mp3" "toString" "auto" none] ∧
    (mainRun (some "sk-test") ⟨"toString", "auto", none, false⟩
      [FsEntry.file "a.mp3"] apiFail).modelsListed = none := by
  refine ⟨rfl, rfl, ?_, ?_, ?_, ?_⟩ <;> decide

/-- Succeeds with "hello" on `source/a.wav` only; every other request throws. -/
def apiPartial : Api := fun req =>
  if req.file == "source/a.wav" then Except.ok "hello" else Except.error "bad"

theorem mainRun_completed_eq (key : String) (opts : Options) (tree : List FsEntry)
    (api : Api) (hkey : key ≠ "") (hm : (MODELS.lookup opts.model).isSome = true)
    (hne : findInEntries SOURCE_DIR tree ≠ []) :
    mainRun (some key) opts tree api
      = ⟨0, 1, (processFiles api opts (findInEntries SOURCE_DIR tree)).requests,
          (processFiles api opts (findInEntries SOURCE_DIR tree)).writes,
          some ⟨(findInEntries SOURCE_DIR tree).length,
            (processFiles api opts (findInEntries SOURCE_DIR tree)).successCount,
            if (processFiles api opts (findInEntries SOURCE_DIR tree)).successCount
                < (findInEntries SOURCE_DIR tree).length
            then some ((findInEntries SOURCE_DIR tree).length
                - (processFiles api opts (findInEntries SOURCE_DIR tree)).successCount)
            else none⟩,
          none, false⟩ := by
  unfold mainRun
  rw [if_neg (by simp [keyMissing, hkey]),
    if_neg (by simp [modelCheckPasses, hm]),
    if_neg (by simp [List.length_eq_zero, hne])]

theorem mainRun_noFiles_eq (key : String) (opts : Options) (tree : List FsEntry)
    (api : Api) (hkey : key ≠ "") (hm : (MODELS.lookup opts.model).isSome = true)
    (hempty : findInEntries SOURCE_DIR tree = []) :
    mainRun (some key) opts tree api = ⟨0, 1, [], [], none, none, true⟩ := by
  unfold mainRun
  rw [if_neg (by simp [keyMissing, hkey]),
    if_neg (by simp [modelCheckPasses, hm]),
    if_pos (by simp [hempty])]

/-- C1 as stated is false: in a run where every discovered file succeeds
(K = 1, S = 1), the emitted summary contains no failed-count line at all —
the code prints `Failed` only under `successCount < audioFiles.length` — so
it does not report failed = K − S = 0. -/
theorem claim_C1_counterexample :
    (mainRun (some "sk-test") defaultOpts [FsEntry.file "a.mp3"] (apiConst "hello")).summary
      = some ⟨1, 1, none⟩ ∧
    reportsFailed
      (mainRun (some "sk-test") defaultOpts [FsEntry.file "a.mp3"] (apiConst "hello")) 0
      = false := by
  exact ⟨rfl, rfl⟩

/-- C1 amended: for every run reaching the processing loop (credential set,
model known, K = number of discovered files non-zero) in which S of the K
files transcribe successfully, the summary reports total = K and
succeeded = S, and reports failed = K − S exactly when S < K; when S = K the
failed line is omitted. -/
theorem claim_C1_summary_counts (key : String) (opts : Options) (tree : List FsEntry)
    (api : Api) (K S : Nat)
    (hkey : key ≠ "") (hm : (MODELS.lookup opts.model).isSome = true)
    (hK : K = (findInEntries SOURCE_DIR tree).length)
    (hS : S = (findInEntries SOURCE_DIR tree).countP
        (fun f => truthy (transcribeAudio api f opts.model opts.language opts.prompt)))
    (hne : K ≠ 0) :
    S ≤ K ∧
    (mainRun (some key) opts tree api).summary
      = some ⟨K, S, if S < K then some (K - S) else none⟩ := by
  subst hK hS
  have hne' : findInEntries SOURCE_DIR tree ≠ [] := by
    intro h
    rw [h] at hne
    exact hne rfl
  rw [mainRun_completed_eq key opts tree api hkey hm hne', ← processFiles_successCount_eq]
  exact ⟨processFiles_successCount_le _ _ _, rfl⟩

/-- Witness for the amended C1: a run with K = 2, S = 1 reports
total = 2, succeeded = 1 and failed = 1. -/
theorem claim_C1_witness :
    ("sk-test" : String) ≠ "" ∧
    (MODELS.lookup defaultOpts.model).isSome = true ∧
    (2 : Nat) ≠ 0 ∧
    (1 ≤ 2 ∧
      (mainRun (some "sk-test") defaultOpts
        [FsEntry.file "a.wav", FsEntry.file "b.mp3"] apiPartial).summary
        = some ⟨2, 1, some 1⟩) :=
  ⟨by decide, by decide, by decide, by
    have h := claim_C1_summary_counts "sk-test" defaultOpts
      [FsEntry.file "a.wav", FsEntry.file "b.mp3"] apiPartial 2 1
      (by decide) (by decide) (by decide) (by decide) (by decide)
    simpa using h⟩

/-- C7: with the preconditions satisfied, the run exits with status 0 no
matter what the external calls do, every discovered file is attempted (one
request per file, so per-file failures never abort the loop), and a throwing
external call is caught — `transcribeAudio` turns it into `none`, the
failure marker that the loop records. -/
theorem claim_C7_failures_not_fatal (key : String) (opts : Options) (tree : List FsEntry)
    (api : Api) (hkey : key ≠ "") (hm : (MODELS.lookup opts.model).isSome = true) :
    (mainRun (some key) opts tree api).exitCode = 0 ∧
    (mainRun (some key) opts tree api).requests.length
      = (findInEntries SOURCE_DIR tree).length ∧
    (∀ f e, api (mkRequest f opts.model opts.language opts.prompt) = Except.error e →
        transcribeAudio api f opts.model opts.language opts.prompt = none) := by
  by_cases hne : findInEntries SOURCE_DIR tree = []
  · rw [mainRun_noFiles_eq key opts tree api hkey hm hne, hne]
    exact ⟨rfl, rfl, fun f e h => by simp [transcribeAudio, h]⟩
  · rw [mainRun_completed_eq key opts tree api hkey hm hne]
    exact ⟨rfl, processFiles_requests_length api opts _,
      fun f e h => by simp [transcribeAudio, h]⟩

/-- Witness for C7: a batch whose only file fails still exits with status 0,
and the failing call is recorded as `none`. -/
theorem claim_C7_witness :
    ("sk-test" : String) ≠ "" ∧
    (MODELS.lookup defaultOpts.model).isSome = true ∧
    (mainRun (some "sk-test") defaultOpts [FsEntry.file "a.mp3"] apiFail).exitCode = 0 ∧
    (mainRun (some "sk-test") defaultOpts [FsEntry.file "a.mp3"] apiFail).requests.length
      = (findInEntries SOURCE_DIR [FsEntry.file "a.mp3"]).length ∧
    transcribeAudio apiFail "source/a.mp3" defaultOpts.model defaultOpts.language
      defaultOpts.prompt = none :=
  ⟨by decide, by decide,
   (claim_C7_failures_not_fatal "sk-test" defaultOpts [FsEntry.file "a.mp3"] apiFail
     (by decide) (by decide)).1,
   (claim_C7_failures_not_fatal "sk-test" defaultOpts [FsEntry.file "a.mp3"] apiFail
     (by decide) (by decide)).2.1,
   (claim_C7_failures_not_fatal "sk-test" defaultOpts [FsEntry.file "a.mp3"] apiFail
     (by decide) (by decide)).2.2 "source/a.mp3" "network error" rfl⟩

/-- C8 as stated is false on one point: with zero discovered files the run
does exit with status 0 and writes nothing, but it prints a "no audio files"
notice and exits before the summary block — no summary reporting total = 0
is emitted. -/
theorem claim_C8_counterexample :
    (mainRun (some "sk-test") defaultOpts [] apiFail).exitCode = 0 ∧
    (mainRun (some "sk-test") defaultOpts [] apiFail).writes = [] ∧
    (mainRun (some "sk-test") defaultOpts [] apiFail).summary = none := by
  exact ⟨rfl, rfl, rfl⟩

/-- C8 amended: whenever discovery finds zero audio files, the run exits
with status 0, writes no output file, issues no request, prints the
no-files notice, and emits no total/succeeded/failed summary block. -/
theorem claim_C8_no_files (key : String) (opts : Options) (tree : List FsEntry)
    (api : Api) (hkey : key ≠ "") (hm : (MODELS.lookup opts.model).isSome = true)
    (hempty : findInEntries SOURCE_DIR tree = []) :
    mainRun (some key) opts tree api = ⟨0, 1, [], [], none, none, true⟩ :=
  mainRun_noFiles_eq key opts tree api hkey hm hempty

/-- Witness for the amended C8: a source tree with one unsupported file
discovers nothing and the run exits cleanly without a summary. -/
theorem claim_C8_witness :
    ("sk-test" : String) ≠ "" ∧
    (MODELS.lookup defaultOpts.model).isSome = true ∧
    findInEntries SOURCE_DIR [FsEntry.file "notes.pdf"] = [] ∧
    mainRun (some "sk-test") defaultOpts [FsEntry.file "notes.pdf"] apiFail
      = ⟨0, 1, [], [], none, none, true⟩ :=
  ⟨by decide, by decide, by decide,
   claim_C8_no_files "sk-test" defaultOpts [FsEntry.file "notes.pdf"] apiFail
     (by decide) (by decide) (by decide)⟩

/-- A source tree in which two different subdirectories hold files with the
same base name. -/
def collideTree : List FsEntry :=
  [FsEntry.dir "a" [FsEntry.file "x.mp3"], FsEntry.dir "b" [FsEntry.file "x.mp3"]]

theorem processFiles_writes_name_mem (api : Api) (opts : Options) (files : List String)
    (p : String) (hp : p ∈ (processFiles api opts files).writes.map Prod.fst) :
    ∃ f ∈ files, p = outputFileFor f := by
  rw [processFiles_writes_eq] at hp
  rcases List.mem_map.mp hp with ⟨w, hw, rfl⟩
  rcases List.mem_filterMap.mp hw with ⟨f, hf, hstep⟩
  refine ⟨f, hf, ?_⟩
  by_cases htr : truthy (transcribeAudio api f opts.model opts.language opts.prompt) = true
  · simp only [htr, if_true, Option.some.injEq] at hstep
    rw [← hstep]
  · simp [htr] at hstep

/-- C2 as stated is false for trees where files in different subdirectories
share a base name: here both of the two successfully transcribed files are
flattened onto the single output name `transcriptions/x.txt`, so the summary
counts S = 2 successes while the output directory holds 1 file. -/
theorem claim_C2_counterexample :
    (mainRun (some "sk-test") defaultOpts collideTree (apiConst "hi")).summary
      = some ⟨2, 2, none⟩ ∧
    (outputDir (mainRun (some "sk-test") defaultOpts collideTree (apiConst "hi"))).length
      = 1 := by
  exact ⟨rfl, rfl⟩

/-- C2 amended: after every run, each file name in the output directory is
the derived output name of some discovered input (never more), the number of
output files is at most the number S of successes, and it equals S whenever
the output names derived from the discovered inputs are pairwise distinct —
in particular whenever no two inputs share a base name.  With colliding base
names the later write overwrites the earlier and fewer than S files remain. -/
theorem claim_C2_output_set (key : String) (opts : Options) (tree : List FsEntry)
    (api : Api) (hkey : key ≠ "") (hm : (MODELS.lookup opts.model).isSome = true) :
    (∀ p ∈ (outputDir (mainRun (some key) opts tree api)).map Prod.fst,
        ∃ f ∈ findInEntries SOURCE_DIR tree, p = outputFileFor f) ∧
    (outputDir (mainRun (some key) opts tree api)).length
      ≤ (processFiles api opts (findInEntries SOURCE_DIR tree)).successCount ∧
    (((findInEntries SOURCE_DIR tree).map outputFileFor).Nodup →
      (outputDir (mainRun (some key) opts tree api)).length
        = (processFiles api opts (findInEntries SOURCE_DIR tree)).successCount) := by
  by_cases hne : findInEntries SOURCE_DIR tree = []
  · rw [mainRun_noFiles_eq key opts tree api hkey hm hne, hne]
    refine ⟨?_, ?_, ?_⟩
    · intro p hp
      simp [outputDir, runWrites] at hp
    · simp [outputDir, runWrites, processFiles]
    · intro _
      simp [outputDir, runWrites, processFiles]
  · rw [mainRun_completed_eq key opts tree api hkey hm hne]
    simp only [outputDir]
    refine ⟨?_, ?_, ?_⟩
    · intro p hp
      rcases mem_runWrites_map_fst _ _ p hp with h | h
      · simp at h
      · exact processFiles_writes_name_mem api opts _ p h
    · calc (runWrites [] (processFiles api opts (findInEntries SOURCE_DIR tree)).writes).length
          ≤ ([] : List (String × String)).length
              + (processFiles api opts (findInEntries SOURCE_DIR tree)).writes.length :=
            runWrites_length_le _ _
        _ = (processFiles api opts (findInEntries SOURCE_DIR tree)).successCount := by
            rw [processFiles_writes_length]; simp
    · intro hnodup
      have hnd : ((processFiles api opts
          (findInEntries SOURCE_DIR tree)).writes.map Prod.fst).Nodup :=
        List.Nodup.sublist (processFiles_writes_fst_sublist api opts _) hnodup
      rw [runWrites_length_of_nodup _ _ hnd (by intro n _ hmem; simp at hmem),
        processFiles_writes_length]
      simp

/-- Witness for the amended C2: a single-file run with one success has
exactly one output file. -/
theorem claim_C2_witness :
    ("sk-test" : String) ≠ "" ∧
    (MODELS.lookup defaultOpts.model).isSome = true ∧
    (outputDir (mainRun (some "sk-test") defaultOpts [FsEntry.file "a.wav"] apiPartial)).length
      ≤ (processFiles apiPartial defaultOpts
          (findInEntries SOURCE_DIR [FsEntry.file "a.wav"])).successCount ∧
    (outputDir (mainRun (some "sk-test") defaultOpts [FsEntry.file "a.wav"] apiPartial)).length
      = (processFiles apiPartial defaultOpts
          (findInEntries SOURCE_DIR [FsEntry.file "a.wav"])).successCount :=
  ⟨by decide, by decide,
   (claim_C2_output_set "sk-test" defaultOpts [FsEntry.file "a.wav"] apiPartial
     (by decide) (by decide)).2.1,
   (claim_C2_output_set "sk-test" defaultOpts [FsEntry.file "a.wav"] apiPartial
     (by decide) (by decide)).2.2 (by decide)⟩

/-- C9: every successfully transcribed input is written to the flat output
directory under its base name with the extension replaced by `.txt` — the
path depends only on the input's base name, not on its subdirectory — and
the returned text replaces the file's entire content whatever the directory
held before. -/
theorem claim_C9_output_path (key : String) (opts : Options) (tree : List FsEntry)
    (api : Api) (f t : String)
    (hkey : key ≠ "") (hm : (MODELS.lookup opts.model).isSome = true)
    (hf : f ∈ findInEntries SOURCE_DIR tree)
    (ht : transcribeAudio api f opts.model opts.language opts.prompt = some t)
    (htne : t ≠ "") :
    (outputFileFor f, t) ∈ (mainRun (some key) opts tree api).writes ∧
    outputFileFor f = pathJoin OUTPUT_DIR
      (String.mk (stripExtSuffix (basename f).toList (extname (basename f)).toList)
        ++ ".txt") ∧
    (∀ fs, lookupW (fsWrite fs (outputFileFor f) t) (outputFileFor f) = some t) := by
  have hne : findInEntries SOURCE_DIR tree ≠ [] := by
    intro h
    rw [h] at hf
    exact absurd hf (List.not_mem_nil f)
  refine ⟨?_, rfl, fun fs => lookupW_fsWrite_self fs _ t⟩
  rw [mainRun_completed_eq key opts tree api hkey hm hne, processFiles_writes_eq]
  apply List.mem_filterMap.mpr
  refine ⟨f, hf, ?_⟩
  simp [ht, truthy, htne]

/-- Witness for C9: `source/a.wav` transcribing to "hello" is written as
`transcriptions/a.txt` with content exactly "hello", also when the file
already existed. -/
theorem claim_C9_witness :
    ("sk-test" : String) ≠ "" ∧
    (MODELS.lookup defaultOpts.model).isSome = true ∧
    "source/a.wav" ∈ findInEntries SOURCE_DIR [FsEntry.file "a.wav"] ∧
    transcribeAudio apiPartial "source/a.wav" defaultOpts.model defaultOpts.language
      defaultOpts.prompt = some "hello" ∧
    (outputFileFor "source/a.wav", "hello")
      ∈ (mainRun (some "sk-test") defaultOpts [FsEntry.file "a.wav"] apiPartial).writes ∧
    outputFileFor "source/a.wav" = "transcriptions/a.txt" ∧
    lookupW (fsWrite [("transcriptions/a.txt", "old text")]
        (outputFileFor "source/a.wav") "hello") (outputFileFor "source/a.wav")
      = some "hello" :=
  ⟨by decide, by decide, by decide, by decide,
   (claim_C9_output_path "sk-test" defaultOpts [FsEntry.file "a.wav"] apiPartial
     "source/a.wav" "hello" (by decide) (by decide) (by decide) (by decide) (by decide)).1,
   by decide,
   (claim_C9_output_path "sk-test" defaultOpts [FsEntry.file "a.wav"] apiPartial
     "source/a.wav" "hello" (by decide) (by decide) (by decide) (by decide) (by decide)).2.2
     [("transcriptions/a.txt", "old text")]⟩

/-- C10: when the external call succeeds but returns the empty string, the
loop's truthiness check treats the file as a failure: it contributes no
success and no write, and processing continues with the remaining files. -/
theorem claim_C10_empty_text (api : Api) (opts : Options) (f : String)
    (rest : List String)
    (h : api (mkRequest f opts.model opts.language opts.prompt) = Except.ok "") :
    (processFiles api opts (f :: rest)).successCount
      = (processFiles api opts rest).successCount ∧
    (processFiles api opts (f :: rest)).writes = (processFiles api opts rest).writes ∧
    transcribeAudio api f opts.model opts.language opts.prompt = some "" := by
  have ht : transcribeAudio api f opts.model opts.language opts.prompt = some "" := by
    simp [transcribeAudio, h]
  have htr : truthy (transcribeAudio api f opts.model opts.language opts.prompt) = false := by
    rw [ht]
    rfl
  refine ⟨?_, ?_, ht⟩ <;> simp [processFiles, htr]

/-- Witness for C10: a call returning empty text yields no success and no
write for that file. -/
theorem claim_C10_witness :
    apiEmpty (mkRequest "source/a.mp3" defaultOpts.model defaultOpts.language
      defaultOpts.prompt) = Except.ok "" ∧
    (processFiles apiEmpty defaultOpts ["source/a.mp3"]).successCount
      = (processFiles apiEmpty defaultOpts []).successCount ∧
    (processFiles apiEmpty defaultOpts ["source/a.mp3"]).writes
      = (processFiles apiEmpty defaultOpts []).writes :=
  ⟨rfl,
   (claim_C10_empty_text apiEmpty defaultOpts "source/a.mp3" [] rfl).1,
   (claim_C10_empty_text apiEmpty defaultOpts "source/a.mp3" [] rfl).2.1⟩
